import Mathlib

/-!
# Game of the rope: the contestants' and the referee's monitor operations

Shallow embedding of `monGameOfRopeCT.c` (operations of the contestants) and
`monGameOfRopeRF.c` (operations of the referee).

Modelling decisions.

* The monitor variables live in `monGameOfRopeDS.h` and the record `FULL_STAT` in
  `probDataStruct.h`; neither header is among the sources.  `MonitorDS` and `FULL_STAT`
  hold exactly the variables and fields that the two source files read or write.
  The counters are natural numbers and the arrays indexed by a team and a contestant
  identity are total maps (their C types and dimensions are declared in the absent
  headers).  The roster of a trial, which `followCoachAdvice` indexes with a counter and
  without a bound test, is laid out as the C array `id[C][M]`: the rows of the teams
  follow one another, so that an index past the end of a row addresses the next row.
* The constants `C`, `M` and the status codes come from `probConst.h`, also absent:
  they are the fields of the parameter `ProbConst`.
* A monitor state is a state of the already initialised monitor: on such a state
  `pthread_once (&init, initialization)` does nothing.  Only executions in which
  `pthread_mutex_lock` / `pthread_mutex_unlock` succeed are modelled (on failure the
  thread exits and the operation never returns); the threads' return status
  (`statusCont`, `statusRef`), which is not a monitor variable, is left out.
* Every call of `saveState` and of `pthread_cond_signal` is recorded as an `Event`,
  together with the monitor variables at the moment of the call.
* An operation that waits is cut at its `while (!flag) pthread_cond_wait (...)` loop into
  the part executed up to the loop (`_enter`) and the part executed after it (`_wake`).
  While the thread is suspended the other threads own the monitor: the i-th call of
  `pthread_cond_wait` returns in the state that the i-th function of the list `env`
  produces.
-/

namespace GameOfRope

/-- Constants of `probConst.h` (not among the sources), taken as parameters:
number of teams `C`, number of contestants of a team playing a trial `M`, and the three
contestant status codes. -/
structure ProbConst where
  C : Nat
  M : Nat
  SEAT_AT_THE_BENCH : Nat
  STAND_IN_POSITION : Nat
  DO_YOUR_BEST : Nat

/-- The fields of `fSt` used by the sources:
`st.contStat[c][n].stat`, `nGame`, `game[g].nTrial`, `game[g].trial[t].id[c][k]`, `end`.
`id g t` is the memory of the roster of trial `t` of game `g`, cell by cell (see `idCell`). -/
structure FULL_STAT where
  contStat : Nat → Nat → Nat
  nGame : Nat
  nTrial : Nat → Nat
  id : Nat → Nat → Nat → Nat
  end_ : Bool

/-- The monitor variables used by the sources. -/
structure MonitorDS where
  fSt : FULL_STAT
  joinTheTeam : Nat → Nat → Bool
  startPulling : Nat → Nat → Bool
  returnToBench : Nat → Nat → Bool
  nContInPosition : Nat → Nat
  nContestants : Nat

/-- The condition variables of the monitor. -/
inductive CondVar where
  | waitForCommand (coachId contId : Nat)
  | waitForNotice (coachId : Nat)
  | proceed
  deriving DecidableEq, Repr

/-- Calls made from inside the monitor to the logger and to the pthread library.
The sources only ever call `saveState` and `pthread_cond_signal`;
`pthread_cond_broadcast` is listed to be able to say so. -/
inductive Call where
  | saveState
  | pthread_cond_signal (cv : CondVar)
  | pthread_cond_broadcast (cv : CondVar)
  deriving DecidableEq, Repr

/-- A call together with the monitor variables at the moment it is made
(`saveState (nFic, &fSt)` persists `mon.fSt`). -/
structure Event where
  call : Call
  mon : MonitorDS

/-- Assignment `a[i][j] = v`. -/
def set2 {α : Type} (a : Nat → Nat → α) (i j : Nat) (v : α) : Nat → Nat → α :=
  fun i' j' => if i' = i ∧ j' = j then v else a i' j'

/-- Assignment of `v` to cell `off` of the roster of trial `t` of game `g`. -/
def set3 {α : Type} (a : Nat → Nat → Nat → α) (g t off : Nat) (v : α) :
    Nat → Nat → Nat → α :=
  fun g' t' off' => if g' = g ∧ t' = t ∧ off' = off then v else a g' t' off'

/-- Modelled from the spec: the declaration of the roster of a trial (`probDataStruct.h`,
not among the sources): for each team the identities of its `M` contestants in position,
as the C array `id[C][M]`.  The cell of `id[c][k]` is at offset `c * M + k`: no bound is
tested, so that `id[c][M]` is the cell of `id[c + 1][0]`; the cells from offset `C * M` on
are what follows the array in memory. -/
def idCell (P : ProbConst) (c k : Nat) : Nat := c * P.M + k

/-- Assignment `fSt.st.contStat[coachId][contId].stat = v`. -/
def MonitorDS.setStat (s : MonitorDS) (coachId contId v : Nat) : MonitorDS :=
  { s with fSt := { s.fSt with contStat := set2 s.fSt.contStat coachId contId v } }

/-- The statuses persisted by the `saveState` calls of a list of events, for one contestant. -/
def recorded (coachId contId : Nat) : List Event → List Nat
  | [] => []
  | e :: es =>
    if e.call = Call.saveState then e.mon.fSt.contStat coachId contId :: recorded coachId contId es
    else recorded coachId contId es

/-- The loop `while (!flag) pthread_cond_wait (&cv, &accessCR);`.
Each `pthread_cond_wait` releases the monitor and returns in the state left by the
other threads, given by the next function of `env`; when `env` is used up and the
flag is still false the thread stays suspended (`none`). -/
def condWait (flag : MonitorDS → Bool) : List (MonitorDS → MonitorDS) → MonitorDS → Option MonitorDS
  | [], s => if flag s then some s else none
  | e :: es, s => if flag s then some s else condWait flag es (e s)

/-- The monitor state after the first `i` interferences of `env`. -/
def afterEnv (env : List (MonitorDS → MonitorDS)) (i : Nat) (s : MonitorDS) : MonitorDS :=
  (env.take i).foldl (fun m e => e m) s

/-! ## Operations of the contestants (`monGameOfRopeCT.c`) -/

/-- `seatDown`, lines 77-78: status update and `saveState`. -/
def seatDown_enter (P : ProbConst) (s : MonitorDS) (coachId contId : Nat) :
    MonitorDS × List Event :=
  let s1 := s.setStat coachId contId P.SEAT_AT_THE_BENCH
  (s1, [⟨Call.saveState, s1⟩])

/-- `seatDown`, lines 83-93: the flag is cleared and `fSt.end` is read and returned. -/
def seatDown_wake (s : MonitorDS) (coachId contId : Nat) : MonitorDS × Bool :=
  let s1 := { s with joinTheTeam := set2 s.joinTheTeam coachId contId false }
  (s1, s1.fSt.end_)

/-- `seatDown (coachId, contId)`: final state, events of the call and returned value;
`none` when the thread is never released from its wait. -/
def seatDown (P : ProbConst) (env : List (MonitorDS → MonitorDS)) (s : MonitorDS)
    (coachId contId : Nat) : Option (MonitorDS × List Event × Bool) :=
  let r := seatDown_enter P s coachId contId
  match condWait (fun m => m.joinTheTeam coachId contId) env r.1 with
  | none => none
  | some sw => some ((seatDown_wake sw coachId contId).1, r.2, (seatDown_wake sw coachId contId).2)

/-- `followCoachAdvice`, lines 118-124: status, roster slot, `saveState`, counter
increment and, when the counter equals `M`, the signal to the coach. -/
def followCoachAdvice_enter (P : ProbConst) (s : MonitorDS) (coachId contId : Nat) :
    MonitorDS × List Event :=
  let s1 := s.setStat coachId contId P.STAND_IN_POSITION
  let s2 := { s1 with fSt := { s1.fSt with
    id := set3 s1.fSt.id s1.fSt.nGame (s1.fSt.nTrial s1.fSt.nGame)
            (idCell P coachId (s1.nContInPosition coachId)) contId } }
  let s3 := { s2 with
    nContInPosition := Function.update s2.nContInPosition coachId (s2.nContInPosition coachId + 1) }
  if s3.nContInPosition coachId = P.M then
    (s3, [⟨Call.saveState, s2⟩, ⟨Call.pthread_cond_signal (CondVar.waitForNotice coachId), s3⟩])
  else
    (s3, [⟨Call.saveState, s2⟩])

/-- `followCoachAdvice`, line 129: the flag is cleared. -/
def followCoachAdvice_wake (s : MonitorDS) (coachId contId : Nat) : MonitorDS :=
  { s with startPulling := set2 s.startPulling coachId contId false }

/-- `followCoachAdvice (coachId, contId)`. -/
def followCoachAdvice (P : ProbConst) (env : List (MonitorDS → MonitorDS)) (s : MonitorDS)
    (coachId contId : Nat) : Option (MonitorDS × List Event) :=
  let r := followCoachAdvice_enter P s coachId contId
  match condWait (fun m => m.startPulling coachId contId) env r.1 with
  | none => none
  | some sw => some (followCoachAdvice_wake sw coachId contId, r.2)

/-- `getReady (coachId, contId)`, lines 159-160. -/
def getReady (P : ProbConst) (s : MonitorDS) (coachId contId : Nat) : MonitorDS × List Event :=
  let s1 := s.setStat coachId contId P.DO_YOUR_BEST
  (s1, [⟨Call.saveState, s1⟩])

/-- `amDone`, lines 191-194: counter increment and, when it equals `C*M`, the signal
to the referee. -/
def amDone_enter (P : ProbConst) (s : MonitorDS) : MonitorDS × List Event :=
  let s1 := { s with nContestants := s.nContestants + 1 }
  if s1.nContestants = P.C * P.M then
    (s1, [⟨Call.pthread_cond_signal CondVar.proceed, s1⟩])
  else
    (s1, [])

/-- `amDone`, line 199: the flag is cleared. -/
def amDone_wake (s : MonitorDS) (coachId contId : Nat) : MonitorDS :=
  { s with returnToBench := set2 s.returnToBench coachId contId false }

/-- `amDone (coachId, contId)`. -/
def amDone (P : ProbConst) (env : List (MonitorDS → MonitorDS)) (s : MonitorDS)
    (coachId contId : Nat) : Option (MonitorDS × List Event) :=
  let r := amDone_enter P s
  match condWait (fun m => m.returnToBench coachId contId) env r.1 with
  | none => none
  | some sw => some (amDone_wake sw coachId contId, r.2)

/-- `endOperContestant (coachId, contId)`, lines 232-247. -/
def endOperContestant (P : ProbConst) (s : MonitorDS) (coachId contId : Nat) :
    MonitorDS × List Event × Bool :=
  let endOp := s.fSt.end_
  if endOp then
    let s1 := s.setStat coachId contId P.SEAT_AT_THE_BENCH
    (s1, [⟨Call.saveState, s1⟩], endOp)
  else
    (s, [], endOp)

/-! ## Operations of the referee (`monGameOfRopeRF.c`)

Between entering and leaving the monitor every one of them holds only the comment
`insert your code here`. -/

/-- `announceNewGame (g)`, lines 64-82. -/
def announceNewGame (_g : Nat) (s : MonitorDS) : MonitorDS × List Event := (s, [])

/-- `callTrial (t)`, lines 94-112. -/
def callTrial (_t : Nat) (s : MonitorDS) : MonitorDS × List Event := (s, [])

/-- `startTrial ()`, lines 122-140. -/
def startTrial (s : MonitorDS) : MonitorDS × List Event := (s, [])

/-- `assertTrialDecision ()`, lines 154-174; the value returned is the literal `'E'`. -/
def assertTrialDecision (s : MonitorDS) : MonitorDS × List Event × Char := (s, [], 'E')

/-- `declareGameWinner (decision)`, lines 187-205. -/
def declareGameWinner (_decision : Char) (s : MonitorDS) : MonitorDS × List Event := (s, [])

/-- `declareMatchWinner ()`, lines 214-232. -/
def declareMatchWinner (s : MonitorDS) : MonitorDS × List Event := (s, [])

/-! ## The monitor as a transition system -/

/-- The atomic sections of the eleven operations: a thread holds the monitor from the
entry of an operation to its wait, and from the return of the wait to the exit. -/
inductive Oper where
  | seatDown_enter (coachId contId : Nat)
  | seatDown_wake (coachId contId : Nat)
  | followCoachAdvice_enter (coachId contId : Nat)
  | followCoachAdvice_wake (coachId contId : Nat)
  | getReady (coachId contId : Nat)
  | amDone_enter (coachId contId : Nat)
  | amDone_wake (coachId contId : Nat)
  | endOperContestant (coachId contId : Nat)
  | announceNewGame (g : Nat)
  | callTrial (t : Nat)
  | startTrial
  | assertTrialDecision
  | declareGameWinner (decision : Char)
  | declareMatchWinner
  deriving DecidableEq, Repr

/-- True for the section of `followCoachAdvice` that precedes its wait. -/
def Oper.isFollowCoachAdvice : Oper → Bool
  | Oper.followCoachAdvice_enter _ _ => true
  | _ => false

/-- One atomic section.  A thread woken while its flag is false goes back to wait and
leaves the state as it is. -/
def exec (P : ProbConst) : Oper → MonitorDS → MonitorDS × List Event
  | Oper.seatDown_enter c n, s => seatDown_enter P s c n
  | Oper.seatDown_wake c n, s => if s.joinTheTeam c n then ((seatDown_wake s c n).1, []) else (s, [])
  | Oper.followCoachAdvice_enter c n, s => followCoachAdvice_enter P s c n
  | Oper.followCoachAdvice_wake c n, s =>
    if s.startPulling c n then (followCoachAdvice_wake s c n, []) else (s, [])
  | Oper.getReady c n, s => getReady P s c n
  | Oper.amDone_enter _ _, s => amDone_enter P s
  | Oper.amDone_wake c n, s => if s.returnToBench c n then (amDone_wake s c n, []) else (s, [])
  | Oper.endOperContestant c n, s =>
    ((endOperContestant P s c n).1, (endOperContestant P s c n).2.1)
  | Oper.announceNewGame g, s => announceNewGame g s
  | Oper.callTrial t, s => callTrial t s
  | Oper.startTrial, s => startTrial s
  | Oper.assertTrialDecision, s => ((assertTrialDecision s).1, (assertTrialDecision s).2.1)
  | Oper.declareGameWinner d, s => declareGameWinner d s
  | Oper.declareMatchWinner, s => declareMatchWinner s

/-- The state after a sequence of atomic sections. -/
def run (P : ProbConst) : List Oper → MonitorDS → MonitorDS
  | [], s => s
  | o :: os, s => run P os (exec P o s).1

/-- The events of a sequence of atomic sections. -/
def runEvents (P : ProbConst) : List Oper → MonitorDS → List Event
  | [], _ => []
  | o :: os, s => (exec P o s).2 ++ runEvents P os (exec P o s).1

/-! ## One cycle of a contestant -/

/-- What the other threads do to the monitor during one cycle of a contestant: during
its three waits (`w1`, `w2`, `w3`) and between two of its operations (`b1` .. `b4`). -/
structure Interference where
  w1 : List (MonitorDS → MonitorDS)
  b1 : MonitorDS → MonitorDS
  w2 : List (MonitorDS → MonitorDS)
  b2 : MonitorDS → MonitorDS
  w3 : List (MonitorDS → MonitorDS)
  b3 : MonitorDS → MonitorDS
  b4 : MonitorDS → MonitorDS

/-- The contestant calls `seatDown`, `followCoachAdvice`, `getReady` and `amDone` in
turn; the result is the state in which its next operation starts and the events of its
four calls. -/
def contestantCycle (P : ProbConst) (I : Interference) (s : MonitorDS) (coachId contId : Nat) :
    Option (MonitorDS × List Event) :=
  match seatDown P I.w1 s coachId contId with
  | none => none
  | some r1 =>
    match followCoachAdvice P I.w2 (I.b1 r1.1) coachId contId with
    | none => none
    | some r2 =>
      match amDone P I.w3 (I.b3 (getReady P (I.b2 r2.1) coachId contId).1) coachId contId with
      | none => none
      | some r4 =>
        some (I.b4 r4.1,
          r1.2.1 ++ r2.2 ++ (getReady P (I.b2 r2.1) coachId contId).2 ++ r4.2)

/-- The interferences `env` raise the flag, whatever the state the wait starts in. -/
def Releases (flag : MonitorDS → Bool) (env : List (MonitorDS → MonitorDS)) : Prop :=
  ∀ m : MonitorDS, ∃ i, i ≤ env.length ∧ flag (afterEnv env i m) = true

/-! ## Concrete data -/

/-- Two teams, three contestants of a team in a trial, status codes 0, 1, 2. -/
def P0 : ProbConst := ⟨2, 3, 0, 1, 2⟩

/-- Modelled from the spec: the function `initialization` (file `monGameOfRopeDS.c`,
not among the sources); after it the statuses are at rest, the counters are 0, the flags
and the termination flag are false. -/
def initState : MonitorDS :=
  { fSt := { contStat := fun _ _ => 0, nGame := 0, nTrial := fun _ => 0,
             id := fun _ _ _ => 0, end_ := false },
    joinTheTeam := fun _ _ => false,
    startPulling := fun _ _ => false,
    returnToBench := fun _ _ => false,
    nContInPosition := fun _ => 0,
    nContestants := 0 }

/-- Two contestants of team 0 are in position. -/
def stTwoInPosition : MonitorDS :=
  { initState with nContInPosition := fun c => if c = 0 then 2 else 0 }

/-- Five contestants have ended their pulling effort. -/
def stFiveDone : MonitorDS := { initState with nContestants := 5 }

/-- An interference by another party: `joinTheTeam[c][n] = true`. -/
def raiseJoinTheTeam (c n : Nat) (s : MonitorDS) : MonitorDS :=
  { s with joinTheTeam := set2 s.joinTheTeam c n true }

/-- An interference by another party: `startPulling[c][n] = true`. -/
def raiseStartPulling (c n : Nat) (s : MonitorDS) : MonitorDS :=
  { s with startPulling := set2 s.startPulling c n true }

/-- An interference by another party: `returnToBench[c][n] = true`. -/
def raiseReturnToBench (c n : Nat) (s : MonitorDS) : MonitorDS :=
  { s with returnToBench := set2 s.returnToBench c n true }

/-- An interference by another party: `fSt.end = true`. -/
def raiseEnd (s : MonitorDS) : MonitorDS :=
  { s with fSt := { s.fSt with end_ := true } }

/-- The match is over. -/
def stEnded : MonitorDS := raiseEnd initState

/-- First trial: `callTrial`, then three contestants of each team take position. -/
def firstTrial : List Oper :=
  [Oper.callTrial 0,
   Oper.followCoachAdvice_enter 0 0, Oper.followCoachAdvice_enter 0 1,
   Oper.followCoachAdvice_enter 0 2,
   Oper.followCoachAdvice_enter 1 0, Oper.followCoachAdvice_enter 1 1,
   Oper.followCoachAdvice_enter 1 2]

/-- Second trial: `callTrial`, then three contestants of each team take position. -/
def secondTrial : List Oper :=
  [Oper.callTrial 1,
   Oper.followCoachAdvice_enter 0 2, Oper.followCoachAdvice_enter 0 3,
   Oper.followCoachAdvice_enter 0 4,
   Oper.followCoachAdvice_enter 1 0, Oper.followCoachAdvice_enter 1 3,
   Oper.followCoachAdvice_enter 1 4]

/-- A first trial in which the contestants 0, 1, 2 of team 0 and 4, 3, 1 of team 1 take
position. -/
def firstTrialMixed : List Oper :=
  [Oper.callTrial 0,
   Oper.followCoachAdvice_enter 0 0, Oper.followCoachAdvice_enter 0 1,
   Oper.followCoachAdvice_enter 0 2,
   Oper.followCoachAdvice_enter 1 4, Oper.followCoachAdvice_enter 1 3,
   Oper.followCoachAdvice_enter 1 1]

/-- The state reached from the initialised monitor by `firstTrialMixed`. -/
def stAfterFirstTrial : MonitorDS := run P0 firstTrialMixed initState

/-- Operations of contestants and referee, `followCoachAdvice` not among them. -/
def opsAfterEnd : List Oper :=
  [Oper.seatDown_enter 0 1, Oper.getReady 1 2, Oper.amDone_enter 1 2, Oper.amDone_wake 1 2,
   Oper.endOperContestant 0 1, Oper.declareMatchWinner]

/-- Contestant (0, 1) is released from each of its waits at the first wake-up and
nothing else happens. -/
def I0 : Interference :=
  { w1 := [raiseJoinTheTeam 0 1], b1 := fun m => m,
    w2 := [raiseStartPulling 0 1], b2 := fun m => m,
    w3 := [raiseReturnToBench 0 1], b3 := fun m => m,
    b4 := fun m => m }

/-! ## Auxiliary facts -/

theorem set2_same {α : Type} (a : Nat → Nat → α) (i j : Nat) (v : α) : set2 a i j v i j = v := by
  simp [set2]

theorem set2_other {α : Type} (a : Nat → Nat → α) (i j i' j' : Nat) (v : α)
    (h : ¬ (i' = i ∧ j' = j)) : set2 a i j v i' j' = a i' j' := by
  simp [set2, h]

theorem set3_same {α : Type} (a : Nat → Nat → Nat → α) (g t off : Nat) (v : α) :
    set3 a g t off v g t off = v := by
  simp [set3]

theorem set3_other {α : Type} (a : Nat → Nat → Nat → α) (g t off g' t' off' : Nat)
    (v : α) (h : off' ≠ off) : set3 a g t off v g' t' off' = a g' t' off' := by
  simp [set3, h]

/-- Inside the rows, the cells of two teams are distinct. -/
theorem idCell_ne (P : ProbConst) (c c' j k : Nat) (hj : j < P.M) (hk : k < P.M)
    (hc : c' ≠ c) : idCell P c' j ≠ idCell P c k := by
  intro h
  simp only [idCell] at h
  rcases Nat.lt_or_gt_of_ne hc with hlt | hgt
  · have h1 : (c' + 1) * P.M ≤ c * P.M := Nat.mul_le_mul_right _ hlt
    rw [Nat.succ_mul] at h1
    omega
  · have h1 : (c + 1) * P.M ≤ c' * P.M := Nat.mul_le_mul_right _ hgt
    rw [Nat.succ_mul] at h1
    omega

theorem afterEnv_zero (env : List (MonitorDS → MonitorDS)) (s : MonitorDS) :
    afterEnv env 0 s = s := by
  simp [afterEnv]

theorem afterEnv_cons_succ (e : MonitorDS → MonitorDS) (es : List (MonitorDS → MonitorDS))
    (i : Nat) (s : MonitorDS) : afterEnv (e :: es) (i + 1) s = afterEnv es i (e s) := by
  simp [afterEnv]

/-- A wait that returns does so after some of the interferences, in a state in which
the flag holds. -/
theorem condWait_some (flag : MonitorDS → Bool) (env : List (MonitorDS → MonitorDS)) :
    ∀ (s sw : MonitorDS), condWait flag env s = some sw →
      ∃ j, j ≤ env.length ∧ sw = afterEnv env j s ∧ flag sw = true := by
  induction env with
  | nil =>
    intro s sw h
    by_cases hf : flag s = true
    · simp [condWait, hf] at h
      exact ⟨0, le_refl _, by rw [afterEnv_zero, h], by rw [← h]; exact hf⟩
    · simp [condWait, hf] at h
  | cons e es ih =>
    intro s sw h
    by_cases hf : flag s = true
    · simp [condWait, hf] at h
      exact ⟨0, Nat.zero_le _, by rw [afterEnv_zero, h], by rw [← h]; exact hf⟩
    · simp [condWait, hf] at h
      obtain ⟨j, hj, hsw, hfl⟩ := ih (e s) sw h
      exact ⟨j + 1, by simpa using hj, by rw [afterEnv_cons_succ]; exact hsw, hfl⟩

/-- A wait whose flag holds after `i` interferences returns, in the first state of the
sequence in which the flag holds. -/
theorem condWait_released (flag : MonitorDS → Bool) (env : List (MonitorDS → MonitorDS)) :
    ∀ (i : Nat) (s : MonitorDS), i ≤ env.length → flag (afterEnv env i s) = true →
      ∃ j, j ≤ i ∧ condWait flag env s = some (afterEnv env j s) ∧
        flag (afterEnv env j s) = true := by
  induction env with
  | nil =>
    intro i s hi hf
    have hi0 : i = 0 := by simpa using hi
    subst hi0
    rw [afterEnv_zero] at hf
    exact ⟨0, le_refl 0, by simp [condWait, hf, afterEnv_zero], by simpa [afterEnv_zero] using hf⟩
  | cons e es ih =>
    intro i s hi hf
    by_cases h0 : flag s = true
    · exact ⟨0, Nat.zero_le i, by simp [condWait, h0, afterEnv_zero],
        by simpa [afterEnv_zero] using h0⟩
    · cases i with
      | zero => rw [afterEnv_zero] at hf; exact absurd hf h0
      | succ i =>
        rw [afterEnv_cons_succ] at hf
        have hi2 : i ≤ es.length := by simpa using hi
        obtain ⟨j, hj, hc, hfj⟩ := ih i (e s) hi2 hf
        refine ⟨j + 1, Nat.succ_le_succ hj, ?_, ?_⟩
        · simp [condWait, h0, afterEnv_cons_succ, hc]
        · simpa [afterEnv_cons_succ] using hfj

/-- An environment that keeps a property of the state keeps it over any number of
interferences. -/
theorem afterEnv_preserves (p : MonitorDS → Prop) (env : List (MonitorDS → MonitorDS))
    (henv : ∀ e ∈ env, ∀ m, p m → p (e m)) :
    ∀ (i : Nat) (s : MonitorDS), p s → p (afterEnv env i s) := by
  induction env with
  | nil => intro i s hs; simpa [afterEnv] using hs
  | cons e es ih =>
    intro i s hs
    cases i with
    | zero => simpa [afterEnv_zero] using hs
    | succ i =>
      rw [afterEnv_cons_succ]
      exact ih (fun e' he' => henv e' (List.mem_cons_of_mem e he')) i (e s)
        (henv e (List.mem_cons_self e es) s hs)

theorem recorded_append (c n : Nat) (a b : List Event) :
    recorded c n (a ++ b) = recorded c n a ++ recorded c n b := by
  induction a with
  | nil => simp [recorded]
  | cons e es ih => by_cases h : e.call = Call.saveState <;> simp [recorded, h, ih]

theorem recorded_seatDown_enter (P : ProbConst) (s : MonitorDS) (c n : Nat) :
    recorded c n (seatDown_enter P s c n).2 = [P.SEAT_AT_THE_BENCH] := by
  simp [seatDown_enter, recorded, MonitorDS.setStat, set2_same]

theorem recorded_followCoachAdvice_enter (P : ProbConst) (s : MonitorDS) (c n : Nat) :
    recorded c n (followCoachAdvice_enter P s c n).2 = [P.STAND_IN_POSITION] := by
  by_cases hM : s.nContInPosition c + 1 = P.M <;>
    simp [followCoachAdvice_enter, recorded, MonitorDS.setStat, set2_same, hM]

theorem recorded_getReady (P : ProbConst) (s : MonitorDS) (c n : Nat) :
    recorded c n (getReady P s c n).2 = [P.DO_YOUR_BEST] := by
  simp [getReady, recorded, MonitorDS.setStat, set2_same]

theorem recorded_amDone_enter (P : ProbConst) (s : MonitorDS) (c n : Nat) :
    recorded c n (amDone_enter P s).2 = [] := by
  by_cases hM : s.nContestants + 1 = P.C * P.M <;> simp [amDone_enter, recorded, hM]

theorem recorded_endOperContestant (P : ProbConst) (s : MonitorDS) (c n : Nat)
    (h : s.fSt.end_ = true) :
    recorded c n (endOperContestant P s c n).2.1 = [P.SEAT_AT_THE_BENCH] := by
  simp [endOperContestant, h, recorded, MonitorDS.setStat, set2_same]

/-- A released wait returns. -/
theorem condWait_of_releases (flag : MonitorDS → Bool) (env : List (MonitorDS → MonitorDS))
    (h : Releases flag env) (s : MonitorDS) : ∃ sw, condWait flag env s = some sw := by
  obtain ⟨i, hi, hf⟩ := h s
  obtain ⟨j, _, hc, _⟩ := condWait_released flag env i s hi hf
  exact ⟨_, hc⟩

/-! ## followCoachAdvice -/

/-- C1, as stated, fails: after a first trial in which the contestants 4, 3, 1 of team 1
took position, the counter of team 0 is 3 = `M`, and `followCoachAdvice (0, 2)` stores
the identity 2 in `id[0][3]`, which is the cell of `id[1][0]`: slot 0 of the roster of
team 1 goes from 4 to 2. -/
theorem followCoachAdvice_enter_overruns_roster :
    stAfterFirstTrial.nContInPosition 0 = 3
    ∧ P0.M = 3
    ∧ stAfterFirstTrial.fSt.id stAfterFirstTrial.fSt.nGame
        (stAfterFirstTrial.fSt.nTrial stAfterFirstTrial.fSt.nGame) (idCell P0 1 0) = 4
    ∧ (followCoachAdvice_enter P0 stAfterFirstTrial 0 2).1.fSt.id
        stAfterFirstTrial.fSt.nGame
        (stAfterFirstTrial.fSt.nTrial stAfterFirstTrial.fSt.nGame) (idCell P0 1 0) = 2 := by
  refine ⟨rfl, rfl, rfl, rfl⟩

/-- C1, amended: in a state where `nContInPosition[coachId] = k` with `k < M`, the part
of `followCoachAdvice` that precedes the wait records STAND_IN_POSITION for the
contestant, writes `contId` in slot `k` of the roster of team `coachId` for the current
trial of the current game and leaves the counter at `k + 1`; its calls are `saveState`
followed, exactly when `k + 1 = M`, by one signal on `waitForNotice[coachId]`, and that
signal is made in the final state, that is after the three updates; the counter and the
roster (slots below `M`, in every trial) of any other team are unchanged. -/
theorem followCoachAdvice_enter_spec (P : ProbConst) (s : MonitorDS) (coachId contId k : Nat)
    (hk : s.nContInPosition coachId = k) (hkM : k < P.M) :
    (followCoachAdvice_enter P s coachId contId).1.fSt.contStat coachId contId
        = P.STAND_IN_POSITION
    ∧ (followCoachAdvice_enter P s coachId contId).1.fSt.id
        s.fSt.nGame (s.fSt.nTrial s.fSt.nGame) (idCell P coachId k) = contId
    ∧ (followCoachAdvice_enter P s coachId contId).1.nContInPosition coachId = k + 1
    ∧ (followCoachAdvice_enter P s coachId contId).2.map Event.call
        = Call.saveState ::
            (if k + 1 = P.M then [Call.pthread_cond_signal (CondVar.waitForNotice coachId)]
             else [])
    ∧ ((∃ e ∈ (followCoachAdvice_enter P s coachId contId).2,
          e.call = Call.pthread_cond_signal (CondVar.waitForNotice coachId)) ↔ k + 1 = P.M)
    ∧ (∀ e ∈ (followCoachAdvice_enter P s coachId contId).2,
          e.call = Call.pthread_cond_signal (CondVar.waitForNotice coachId) →
          e.mon = (followCoachAdvice_enter P s coachId contId).1)
    ∧ (∀ c, c ≠ coachId →
          (followCoachAdvice_enter P s coachId contId).1.nContInPosition c = s.nContInPosition c
          ∧ ∀ g t j, j < P.M →
              (followCoachAdvice_enter P s coachId contId).1.fSt.id g t (idCell P c j)
                = s.fSt.id g t (idCell P c j)) := by
  subst hk
  by_cases hM : s.nContInPosition coachId + 1 = P.M
  · simp [followCoachAdvice_enter, MonitorDS.setStat, set2_same, set3_same, hM]
    intro c hc
    exact ⟨by simp [Function.update, hc],
      fun g t j hj => set3_other _ _ _ _ _ _ _ _ (idCell_ne P coachId c j _ hj hkM hc)⟩
  · simp [followCoachAdvice_enter, MonitorDS.setStat, set2_same, set3_same, hM]
    intro c hc
    exact ⟨by simp [Function.update, hc],
      fun g t j hj => set3_other _ _ _ _ _ _ _ _ (idCell_ne P coachId c j _ hj hkM hc)⟩

/-- Witness of the amended C1 at `M = 3`, team 0 with two contestants in position,
contestant 2. -/
theorem followCoachAdvice_enter_spec_witness :
    stTwoInPosition.nContInPosition 0 = 2
    ∧ 2 < P0.M
    ∧ (followCoachAdvice_enter P0 stTwoInPosition 0 2).1.fSt.id
        stTwoInPosition.fSt.nGame (stTwoInPosition.fSt.nTrial stTwoInPosition.fSt.nGame)
        (idCell P0 0 2) = 2
    ∧ (followCoachAdvice_enter P0 stTwoInPosition 0 2).1.nContInPosition 0 = 2 + 1
    ∧ (followCoachAdvice_enter P0 stTwoInPosition 0 2).2.map Event.call
        = Call.saveState ::
            (if 2 + 1 = P0.M then [Call.pthread_cond_signal (CondVar.waitForNotice 0)] else []) :=
  ⟨rfl, by decide,
    (followCoachAdvice_enter_spec P0 stTwoInPosition 0 2 2 rfl (by decide)).2.1,
    (followCoachAdvice_enter_spec P0 stTwoInPosition 0 2 2 rfl (by decide)).2.2.1,
    (followCoachAdvice_enter_spec P0 stTwoInPosition 0 2 2 rfl (by decide)).2.2.2.1⟩

/-! ## amDone -/

/-- C3: in a state where `nContestants = n`, `amDone` leaves the counter at `n + 1`
before it waits and changes nothing else there; its only possible call is one signal on
`proceed`, made exactly when `n + 1 = C * M` and after the increment; it never calls
`saveState`.  A call that returns does so from a wake-up state in which the
`returnToBench` flag of the contestant is true, and it returns as soon as the flag holds;
what it does on wake is to clear that one flag: every other flag, every status and the
rest of `fSt`, and the counters are left as they are. -/
theorem amDone_spec (P : ProbConst) (env : List (MonitorDS → MonitorDS)) (s : MonitorDS)
    (coachId contId n : Nat) (hn : s.nContestants = n) :
    (amDone_enter P s).1 = { s with nContestants := n + 1 }
    ∧ (amDone_enter P s).1.nContestants = n + 1
    ∧ (amDone_enter P s).2.map Event.call
        = (if n + 1 = P.C * P.M then [Call.pthread_cond_signal CondVar.proceed] else [])
    ∧ (∀ e ∈ (amDone_enter P s).2, e.mon = (amDone_enter P s).1)
    ∧ (∀ e ∈ (amDone_enter P s).2, e.call ≠ Call.saveState)
    ∧ (∀ r, amDone P env s coachId contId = some r →
        r.2 = (amDone_enter P s).2
        ∧ ∃ j sw, j ≤ env.length ∧ sw = afterEnv env j (amDone_enter P s).1
            ∧ sw.returnToBench coachId contId = true
            ∧ r.1 = amDone_wake sw coachId contId)
    ∧ (∀ i, i ≤ env.length →
        (afterEnv env i (amDone_enter P s).1).returnToBench coachId contId = true →
        ∃ r, amDone P env s coachId contId = some r)
    ∧ (∀ sw : MonitorDS,
        (amDone_wake sw coachId contId).returnToBench coachId contId = false
        ∧ (∀ c m, ¬ (c = coachId ∧ m = contId) →
            (amDone_wake sw coachId contId).returnToBench c m = sw.returnToBench c m)
        ∧ (amDone_wake sw coachId contId).fSt = sw.fSt
        ∧ (amDone_wake sw coachId contId).joinTheTeam = sw.joinTheTeam
        ∧ (amDone_wake sw coachId contId).startPulling = sw.startPulling
        ∧ (amDone_wake sw coachId contId).nContInPosition = sw.nContInPosition
        ∧ (amDone_wake sw coachId contId).nContestants = sw.nContestants) := by
  subst hn
  have henter : (amDone_enter P s).1 = { s with nContestants := s.nContestants + 1 } := by
    by_cases hM : s.nContestants + 1 = P.C * P.M <;> simp [amDone_enter, hM]
  refine ⟨henter, by rw [henter], ?_, ?_, ?_, ?_, ?_, ?_⟩
  · by_cases hM : s.nContestants + 1 = P.C * P.M <;> simp [amDone_enter, hM]
  · by_cases hM : s.nContestants + 1 = P.C * P.M <;> simp [amDone_enter, hM]
  · by_cases hM : s.nContestants + 1 = P.C * P.M <;> simp [amDone_enter, hM]
  · intro r hr
    cases hw : condWait (fun m => m.returnToBench coachId contId) env (amDone_enter P s).1 with
    | none => simp [amDone, hw] at hr
    | some sw =>
      obtain ⟨j, hj, hsw, hf⟩ := condWait_some _ env _ sw hw
      simp only [amDone, hw, Option.some.injEq] at hr
      subst hr
      exact ⟨rfl, j, sw, hj, hsw, hf, rfl⟩
  · intro i hi hf
    obtain ⟨j, _, hc, _⟩ :=
      condWait_released (fun m => m.returnToBench coachId contId) env i _ hi hf
    refine ⟨(amDone_wake (afterEnv env j (amDone_enter P s).1) coachId contId,
      (amDone_enter P s).2), ?_⟩
    simp only [amDone, hc]
  · intro sw
    exact ⟨set2_same _ _ _ _, fun c m hcm => set2_other _ _ _ _ _ _ hcm, rfl, rfl, rfl, rfl, rfl⟩

/-- Witness of C3: `C * M = 6` and five contestants have finished. -/
theorem amDone_spec_witness :
    stFiveDone.nContestants = 5
    ∧ (amDone_enter P0 stFiveDone).1.nContestants = 5 + 1
    ∧ (amDone_enter P0 stFiveDone).2.map Event.call
        = (if 5 + 1 = P0.C * P0.M then [Call.pthread_cond_signal CondVar.proceed] else [])
    ∧ ∃ r, amDone P0 [raiseReturnToBench 1 2] stFiveDone 1 2 = some r :=
  ⟨rfl,
    (amDone_spec P0 [raiseReturnToBench 1 2] stFiveDone 1 2 5 rfl).2.1,
    (amDone_spec P0 [raiseReturnToBench 1 2] stFiveDone 1 2 5 rfl).2.2.1,
    (amDone_spec P0 [raiseReturnToBench 1 2] stFiveDone 1 2 5 rfl).2.2.2.2.2.2.1 1
      (by decide) rfl⟩

/-! ## seatDown -/

/-- C4: before it waits `seatDown` records SEAT_AT_THE_BENCH for the contestant and
calls `saveState` on that state, changing nothing else.  A call that returns does so
from a wake-up state `sw` in which the `joinTheTeam` flag of the contestant is true, and
it returns as soon as the flag holds; the value returned is the termination flag of
`sw`, and the state left is `sw` with that one flag cleared: every other flag, all of
`fSt` (statuses and termination flag included) and the counters are those of `sw`. -/
theorem seatDown_spec (P : ProbConst) (env : List (MonitorDS → MonitorDS)) (s : MonitorDS)
    (coachId contId : Nat) :
    (seatDown_enter P s coachId contId).1.fSt.contStat coachId contId = P.SEAT_AT_THE_BENCH
    ∧ (∀ c m, ¬ (c = coachId ∧ m = contId) →
        (seatDown_enter P s coachId contId).1.fSt.contStat c m = s.fSt.contStat c m)
    ∧ (seatDown_enter P s coachId contId).1.fSt.nGame = s.fSt.nGame
    ∧ (seatDown_enter P s coachId contId).1.fSt.nTrial = s.fSt.nTrial
    ∧ (seatDown_enter P s coachId contId).1.fSt.id = s.fSt.id
    ∧ (seatDown_enter P s coachId contId).1.fSt.end_ = s.fSt.end_
    ∧ (seatDown_enter P s coachId contId).1.joinTheTeam = s.joinTheTeam
    ∧ (seatDown_enter P s coachId contId).1.startPulling = s.startPulling
    ∧ (seatDown_enter P s coachId contId).1.returnToBench = s.returnToBench
    ∧ (seatDown_enter P s coachId contId).1.nContInPosition = s.nContInPosition
    ∧ (seatDown_enter P s coachId contId).1.nContestants = s.nContestants
    ∧ (seatDown_enter P s coachId contId).2
        = [⟨Call.saveState, (seatDown_enter P s coachId contId).1⟩]
    ∧ (∀ r, seatDown P env s coachId contId = some r →
        r.2.1 = (seatDown_enter P s coachId contId).2
        ∧ ∃ j sw, j ≤ env.length ∧ sw = afterEnv env j (seatDown_enter P s coachId contId).1
            ∧ sw.joinTheTeam coachId contId = true
            ∧ r.1 = (seatDown_wake sw coachId contId).1
            ∧ r.2.2 = sw.fSt.end_)
    ∧ (∀ i, i ≤ env.length →
        (afterEnv env i (seatDown_enter P s coachId contId).1).joinTheTeam coachId contId = true →
        ∃ r, seatDown P env s coachId contId = some r)
    ∧ (∀ sw : MonitorDS,
        (seatDown_wake sw coachId contId).1.joinTheTeam coachId contId = false
        ∧ (∀ c m, ¬ (c = coachId ∧ m = contId) →
            (seatDown_wake sw coachId contId).1.joinTheTeam c m = sw.joinTheTeam c m)
        ∧ (seatDown_wake sw coachId contId).1.fSt = sw.fSt
        ∧ (seatDown_wake sw coachId contId).1.startPulling = sw.startPulling
        ∧ (seatDown_wake sw coachId contId).1.returnToBench = sw.returnToBench
        ∧ (seatDown_wake sw coachId contId).1.nContInPosition = sw.nContInPosition
        ∧ (seatDown_wake sw coachId contId).1.nContestants = sw.nContestants
        ∧ (seatDown_wake sw coachId contId).2 = sw.fSt.end_) := by
  refine ⟨set2_same _ _ _ _, fun c m h => set2_other _ _ _ _ _ _ h, rfl, rfl, rfl, rfl, rfl,
    rfl, rfl, rfl, rfl, rfl, ?_, ?_, ?_⟩
  · intro r hr
    cases hw : condWait (fun m => m.joinTheTeam coachId contId) env
        (seatDown_enter P s coachId contId).1 with
    | none => simp [seatDown, hw] at hr
    | some sw =>
      obtain ⟨j, hj, hsw, hf⟩ := condWait_some _ env _ sw hw
      simp only [seatDown, hw, Option.some.injEq] at hr
      subst hr
      exact ⟨rfl, j, sw, hj, hsw, hf, rfl, rfl⟩
  · intro i hi hf
    obtain ⟨j, _, hc, _⟩ :=
      condWait_released (fun m => m.joinTheTeam coachId contId) env i _ hi hf
    refine ⟨((seatDown_wake (afterEnv env j (seatDown_enter P s coachId contId).1)
        coachId contId).1, (seatDown_enter P s coachId contId).2,
      (seatDown_wake (afterEnv env j (seatDown_enter P s coachId contId).1)
        coachId contId).2), ?_⟩
    simp only [seatDown, hc]
  · intro sw
    exact ⟨set2_same _ _ _ _, fun c m hcm => set2_other _ _ _ _ _ _ hcm, rfl, rfl, rfl, rfl,
      rfl, rfl⟩

/-- Witness of C4: the flag of contestant (0, 1) is raised during its first wait. -/
theorem seatDown_spec_witness :
    (seatDown_enter P0 initState 0 1).1.fSt.contStat 0 1 = P0.SEAT_AT_THE_BENCH
    ∧ (seatDown_enter P0 initState 0 1).2
        = [⟨Call.saveState, (seatDown_enter P0 initState 0 1).1⟩]
    ∧ ∃ r, seatDown P0 [raiseJoinTheTeam 0 1] initState 0 1 = some r :=
  ⟨(seatDown_spec P0 [raiseJoinTheTeam 0 1] initState 0 1).1,
    (seatDown_spec P0 [raiseJoinTheTeam 0 1] initState 0 1).2.2.2.2.2.2.2.2.2.2.2.1,
    (seatDown_spec P0 [raiseJoinTheTeam 0 1] initState 0 1).2.2.2.2.2.2.2.2.2.2.2.2.2.1 1
      (by decide) rfl⟩

/-- The value returned by `seatDown` is the termination flag at wake-up: here the flag
is false when the contestant sits down, is set while it waits, and `true` is returned. -/
theorem seatDown_returns_flag_at_wake :
    initState.fSt.end_ = false
    ∧ (seatDown P0 [raiseEnd, raiseJoinTheTeam 0 1] initState 0 1).map (fun r => r.2.2)
        = some true := by
  exact ⟨rfl, rfl⟩

/-! ## endOperContestant -/

/-- C5: `endOperContestant` returns the termination flag of the state it is called in;
when the flag is true the resulting state is that state with the status of the
contestant set to SEAT_AT_THE_BENCH and `saveState` is called once, on that state;
when the flag is false the state is unchanged and nothing is called. -/
theorem endOperContestant_spec (P : ProbConst) (s : MonitorDS) (coachId contId : Nat) :
    (endOperContestant P s coachId contId).2.2 = s.fSt.end_
    ∧ (endOperContestant P s coachId contId).1
        = (if s.fSt.end_ = true then s.setStat coachId contId P.SEAT_AT_THE_BENCH else s)
    ∧ (endOperContestant P s coachId contId).2.1
        = (if s.fSt.end_ = true then
            [⟨Call.saveState, s.setStat coachId contId P.SEAT_AT_THE_BENCH⟩] else [])
    ∧ (s.setStat coachId contId P.SEAT_AT_THE_BENCH).fSt.contStat coachId contId
        = P.SEAT_AT_THE_BENCH
    ∧ (∀ c m, ¬ (c = coachId ∧ m = contId) →
        (s.setStat coachId contId P.SEAT_AT_THE_BENCH).fSt.contStat c m = s.fSt.contStat c m)
    ∧ (s.setStat coachId contId P.SEAT_AT_THE_BENCH).fSt.nGame = s.fSt.nGame
    ∧ (s.setStat coachId contId P.SEAT_AT_THE_BENCH).fSt.nTrial = s.fSt.nTrial
    ∧ (s.setStat coachId contId P.SEAT_AT_THE_BENCH).fSt.id = s.fSt.id
    ∧ (s.setStat coachId contId P.SEAT_AT_THE_BENCH).fSt.end_ = s.fSt.end_
    ∧ (s.setStat coachId contId P.SEAT_AT_THE_BENCH).joinTheTeam = s.joinTheTeam
    ∧ (s.setStat coachId contId P.SEAT_AT_THE_BENCH).startPulling = s.startPulling
    ∧ (s.setStat coachId contId P.SEAT_AT_THE_BENCH).returnToBench = s.returnToBench
    ∧ (s.setStat coachId contId P.SEAT_AT_THE_BENCH).nContInPosition = s.nContInPosition
    ∧ (s.setStat coachId contId P.SEAT_AT_THE_BENCH).nContestants = s.nContestants := by
  refine ⟨?_, ?_, ?_, set2_same _ _ _ _, fun c m h => set2_other _ _ _ _ _ _ h, rfl, rfl, rfl,
    rfl, rfl, rfl, rfl, rfl, rfl⟩
  · by_cases h : s.fSt.end_ = true <;> simp [endOperContestant, h]
  · by_cases h : s.fSt.end_ = true <;> simp [endOperContestant, h]
  · by_cases h : s.fSt.end_ = true <;> simp [endOperContestant, h]

/-- Witness of C5: after the end of the match the contestant (1, 0) is told so and its
status SEAT_AT_THE_BENCH is saved. -/
theorem endOperContestant_spec_witness :
    (endOperContestant P0 stEnded 1 0).2.2 = true
    ∧ (endOperContestant P0 initState 1 0).2.2 = false :=
  ⟨(endOperContestant_spec P0 stEnded 1 0).1, (endOperContestant_spec P0 initState 1 0).1⟩

/-! ## One cycle: the statuses saved -/

/-- C9: when each of its three waits is released, one cycle `seatDown`,
`followCoachAdvice`, `getReady`, `amDone` of a contestant returns, and the statuses that
its calls save for the contestant are, phase by phase, SEAT_AT_THE_BENCH (`seatDown`),
STAND_IN_POSITION (`followCoachAdvice`), DO_YOUR_BEST (`getReady`) and none (`amDone`);
followed by the next `seatDown`, or by `endOperContestant` in a state where the
termination flag is true, the sequence is SEAT_AT_THE_BENCH, STAND_IN_POSITION,
DO_YOUR_BEST, SEAT_AT_THE_BENCH.  `getReady` changes the status of the contestant and
nothing else; `amDone` leaves every status (all of `fSt`) as it is. -/
theorem contestantCycle_statuses (P : ProbConst) (I : Interference) (s : MonitorDS)
    (coachId contId : Nat)
    (h1 : Releases (fun m => m.joinTheTeam coachId contId) I.w1)
    (h2 : Releases (fun m => m.startPulling coachId contId) I.w2)
    (h3 : Releases (fun m => m.returnToBench coachId contId) I.w3) :
    (∃ s4 ev1 ev2 ev3 ev4,
        contestantCycle P I s coachId contId = some (s4, ev1 ++ ev2 ++ ev3 ++ ev4)
        ∧ recorded coachId contId ev1 = [P.SEAT_AT_THE_BENCH]
        ∧ recorded coachId contId ev2 = [P.STAND_IN_POSITION]
        ∧ recorded coachId contId ev3 = [P.DO_YOUR_BEST]
        ∧ recorded coachId contId ev4 = []
        ∧ recorded coachId contId (ev1 ++ ev2 ++ ev3 ++ ev4)
            = [P.SEAT_AT_THE_BENCH, P.STAND_IN_POSITION, P.DO_YOUR_BEST]
        ∧ recorded coachId contId
            ((ev1 ++ ev2 ++ ev3 ++ ev4) ++ (seatDown_enter P s4 coachId contId).2)
            = [P.SEAT_AT_THE_BENCH, P.STAND_IN_POSITION, P.DO_YOUR_BEST, P.SEAT_AT_THE_BENCH]
        ∧ (∀ st : MonitorDS, st.fSt.end_ = true →
            recorded coachId contId
              ((ev1 ++ ev2 ++ ev3 ++ ev4) ++ (endOperContestant P st coachId contId).2.1)
              = [P.SEAT_AT_THE_BENCH, P.STAND_IN_POSITION, P.DO_YOUR_BEST,
                  P.SEAT_AT_THE_BENCH]))
    ∧ (∀ st : MonitorDS,
        (getReady P st coachId contId).1.fSt.contStat coachId contId = P.DO_YOUR_BEST
        ∧ (∀ c m, ¬ (c = coachId ∧ m = contId) →
            (getReady P st coachId contId).1.fSt.contStat c m = st.fSt.contStat c m)
        ∧ (getReady P st coachId contId).1.fSt.nGame = st.fSt.nGame
        ∧ (getReady P st coachId contId).1.fSt.nTrial = st.fSt.nTrial
        ∧ (getReady P st coachId contId).1.fSt.id = st.fSt.id
        ∧ (getReady P st coachId contId).1.fSt.end_ = st.fSt.end_
        ∧ (getReady P st coachId contId).1.joinTheTeam = st.joinTheTeam
        ∧ (getReady P st coachId contId).1.startPulling = st.startPulling
        ∧ (getReady P st coachId contId).1.returnToBench = st.returnToBench
        ∧ (getReady P st coachId contId).1.nContInPosition = st.nContInPosition
        ∧ (getReady P st coachId contId).1.nContestants = st.nContestants
        ∧ (getReady P st coachId contId).2
            = [⟨Call.saveState, (getReady P st coachId contId).1⟩])
    ∧ (∀ st : MonitorDS,
        (amDone_enter P st).1.fSt = st.fSt
        ∧ (amDone_wake st coachId contId).fSt = st.fSt
        ∧ ∀ e ∈ (amDone_enter P st).2, e.call ≠ Call.saveState) := by
  refine ⟨?_, ?_, ?_⟩
  · obtain ⟨sw1, hw1⟩ := condWait_of_releases _ I.w1 h1 (seatDown_enter P s coachId contId).1
    have hsd : seatDown P I.w1 s coachId contId
        = some ((seatDown_wake sw1 coachId contId).1, (seatDown_enter P s coachId contId).2,
            (seatDown_wake sw1 coachId contId).2) := by
      simp only [seatDown, hw1]
    obtain ⟨sw2, hw2⟩ := condWait_of_releases _ I.w2 h2
      (followCoachAdvice_enter P (I.b1 (seatDown_wake sw1 coachId contId).1) coachId contId).1
    have hfc : followCoachAdvice P I.w2 (I.b1 (seatDown_wake sw1 coachId contId).1)
          coachId contId
        = some (followCoachAdvice_wake sw2 coachId contId,
            (followCoachAdvice_enter P (I.b1 (seatDown_wake sw1 coachId contId).1)
              coachId contId).2) := by
      simp only [followCoachAdvice, hw2]
    obtain ⟨sw3, hw3⟩ := condWait_of_releases _ I.w3 h3
      (amDone_enter P (I.b3 (getReady P (I.b2 (followCoachAdvice_wake sw2 coachId contId))
        coachId contId).1)).1
    have had : amDone P I.w3 (I.b3 (getReady P (I.b2 (followCoachAdvice_wake sw2 coachId contId))
          coachId contId).1) coachId contId
        = some (amDone_wake sw3 coachId contId,
            (amDone_enter P (I.b3 (getReady P (I.b2 (followCoachAdvice_wake sw2 coachId contId))
              coachId contId).1)).2) := by
      simp only [amDone, hw3]
    refine ⟨I.b4 (amDone_wake sw3 coachId contId),
      (seatDown_enter P s coachId contId).2,
      (followCoachAdvice_enter P (I.b1 (seatDown_wake sw1 coachId contId).1) coachId contId).2,
      (getReady P (I.b2 (followCoachAdvice_wake sw2 coachId contId)) coachId contId).2,
      (amDone_enter P (I.b3 (getReady P (I.b2 (followCoachAdvice_wake sw2 coachId contId))
        coachId contId).1)).2, ?_,
      recorded_seatDown_enter P s coachId contId,
      recorded_followCoachAdvice_enter P _ coachId contId,
      recorded_getReady P _ coachId contId,
      recorded_amDone_enter P _ coachId contId, ?_, ?_, ?_⟩
    · simp only [contestantCycle, hsd, hfc, had]
    · simp only [recorded_append, recorded_seatDown_enter, recorded_followCoachAdvice_enter,
        recorded_getReady, recorded_amDone_enter]
      rfl
    · simp only [recorded_append, recorded_seatDown_enter, recorded_followCoachAdvice_enter,
        recorded_getReady, recorded_amDone_enter]
      rfl
    · intro st hst
      simp only [recorded_append, recorded_seatDown_enter, recorded_followCoachAdvice_enter,
        recorded_getReady, recorded_amDone_enter,
        recorded_endOperContestant P st coachId contId hst]
      rfl
  · intro st
    exact ⟨set2_same _ _ _ _, fun c m h => set2_other _ _ _ _ _ _ h, rfl, rfl, rfl, rfl, rfl,
      rfl, rfl, rfl, rfl, rfl⟩
  · intro st
    refine ⟨?_, rfl, ?_⟩
    · by_cases hM : st.nContestants + 1 = P.C * P.M <;> simp [amDone_enter, hM]
    · by_cases hM : st.nContestants + 1 = P.C * P.M <;> simp [amDone_enter, hM]

theorem releases_raiseJoinTheTeam (c n : Nat) :
    Releases (fun m => m.joinTheTeam c n) [raiseJoinTheTeam c n] := by
  intro m
  exact ⟨1, le_refl _, by simp [afterEnv, raiseJoinTheTeam, set2_same]⟩

theorem releases_raiseStartPulling (c n : Nat) :
    Releases (fun m => m.startPulling c n) [raiseStartPulling c n] := by
  intro m
  exact ⟨1, le_refl _, by simp [afterEnv, raiseStartPulling, set2_same]⟩

theorem releases_raiseReturnToBench (c n : Nat) :
    Releases (fun m => m.returnToBench c n) [raiseReturnToBench c n] := by
  intro m
  exact ⟨1, le_refl _, by simp [afterEnv, raiseReturnToBench, set2_same]⟩

/-- Witness of C9: contestant (0, 1), released at the first wake-up of each wait. -/
theorem contestantCycle_statuses_witness :
    Releases (fun m => m.joinTheTeam 0 1) I0.w1
    ∧ Releases (fun m => m.startPulling 0 1) I0.w2
    ∧ Releases (fun m => m.returnToBench 0 1) I0.w3
    ∧ ∃ s4 ev1 ev2 ev3 ev4,
        contestantCycle P0 I0 initState 0 1 = some (s4, ev1 ++ ev2 ++ ev3 ++ ev4)
        ∧ recorded 0 1 ev1 = [P0.SEAT_AT_THE_BENCH]
        ∧ recorded 0 1 ev2 = [P0.STAND_IN_POSITION]
        ∧ recorded 0 1 ev3 = [P0.DO_YOUR_BEST]
        ∧ recorded 0 1 ev4 = []
        ∧ recorded 0 1 (ev1 ++ ev2 ++ ev3 ++ ev4)
            = [P0.SEAT_AT_THE_BENCH, P0.STAND_IN_POSITION, P0.DO_YOUR_BEST]
        ∧ recorded 0 1 ((ev1 ++ ev2 ++ ev3 ++ ev4) ++ (seatDown_enter P0 s4 0 1).2)
            = [P0.SEAT_AT_THE_BENCH, P0.STAND_IN_POSITION, P0.DO_YOUR_BEST,
                P0.SEAT_AT_THE_BENCH]
        ∧ (∀ st : MonitorDS, st.fSt.end_ = true →
            recorded 0 1
              ((ev1 ++ ev2 ++ ev3 ++ ev4) ++ (endOperContestant P0 st 0 1).2.1)
              = [P0.SEAT_AT_THE_BENCH, P0.STAND_IN_POSITION, P0.DO_YOUR_BEST,
                  P0.SEAT_AT_THE_BENCH]) :=
  ⟨releases_raiseJoinTheTeam 0 1, releases_raiseStartPulling 0 1,
    releases_raiseReturnToBench 0 1,
    (contestantCycle_statuses P0 I0 initState 0 1 (releases_raiseJoinTheTeam 0 1)
      (releases_raiseStartPulling 0 1) (releases_raiseReturnToBench 0 1)).1⟩

/-- The cycle of the witness, evaluated: the statuses saved are 0, 1, 2. -/
theorem contestantCycle_evaluated :
    (contestantCycle P0 I0 initState 0 1).map (fun r => recorded 0 1 r.2) = some [0, 1, 2] := by
  rfl

/-! ## The termination flag -/

/-- No atomic section of the two source files writes `fSt.end`. -/
theorem exec_end (P : ProbConst) (o : Oper) (s : MonitorDS) :
    (exec P o s).1.fSt.end_ = s.fSt.end_ := by
  cases o <;>
    simp only [exec, seatDown_enter, seatDown_wake, followCoachAdvice_enter,
      followCoachAdvice_wake, getReady, amDone_enter, amDone_wake, endOperContestant,
      announceNewGame, callTrial, startTrial, assertTrialDecision, declareGameWinner,
      declareMatchWinner, MonitorDS.setStat] <;>
    split_ifs <;> rfl

theorem run_end (P : ProbConst) (ops : List Oper) :
    ∀ s : MonitorDS, (run P ops s).fSt.end_ = s.fSt.end_ := by
  induction ops with
  | nil => intro s; rfl
  | cons o os ih => intro s; simp only [run]; rw [ih, exec_end]

/-- Apart from the entry section of `followCoachAdvice`, no atomic section gives a
contestant the status STAND_IN_POSITION, neither in the state it leaves nor in a state
it passes to the logger or signals in. -/
theorem exec_not_in_position (P : ProbConst)
    (hSeat : P.SEAT_AT_THE_BENCH ≠ P.STAND_IN_POSITION)
    (hBest : P.DO_YOUR_BEST ≠ P.STAND_IN_POSITION) (o : Oper)
    (ho : o.isFollowCoachAdvice = false) (s : MonitorDS) (c n : Nat)
    (hs : s.fSt.contStat c n ≠ P.STAND_IN_POSITION) :
    (exec P o s).1.fSt.contStat c n ≠ P.STAND_IN_POSITION
    ∧ ∀ e ∈ (exec P o s).2, e.mon.fSt.contStat c n ≠ P.STAND_IN_POSITION := by
  have hset : ∀ (c0 n0 v : Nat), v ≠ P.STAND_IN_POSITION →
      set2 s.fSt.contStat c0 n0 v c n ≠ P.STAND_IN_POSITION := by
    intro c0 n0 v hv
    by_cases h : c = c0 ∧ n = n0
    · simpa [set2, h] using hv
    · simpa [set2, h] using hs
  cases o with
  | followCoachAdvice_enter c0 n0 => simp [Oper.isFollowCoachAdvice] at ho
  | seatDown_enter c0 n0 =>
    simpa [exec, seatDown_enter, MonitorDS.setStat] using hset c0 n0 _ hSeat
  | getReady c0 n0 =>
    simpa [exec, getReady, MonitorDS.setStat] using hset c0 n0 _ hBest
  | endOperContestant c0 n0 =>
    by_cases h : s.fSt.end_ = true
    · simpa [exec, endOperContestant, h, MonitorDS.setStat] using hset c0 n0 _ hSeat
    · simpa [exec, endOperContestant, h] using hs
  | amDone_enter c0 n0 =>
    by_cases hM : s.nContestants + 1 = P.C * P.M
    · simpa [exec, amDone_enter, hM] using hs
    · simpa [exec, amDone_enter, hM] using hs
  | seatDown_wake c0 n0 =>
    by_cases h : s.joinTheTeam c0 n0 = true
    · simpa [exec, seatDown_wake, h] using hs
    · simpa [exec, seatDown_wake, h] using hs
  | followCoachAdvice_wake c0 n0 =>
    by_cases h : s.startPulling c0 n0 = true
    · simpa [exec, followCoachAdvice_wake, h] using hs
    · simpa [exec, followCoachAdvice_wake, h] using hs
  | amDone_wake c0 n0 =>
    by_cases h : s.returnToBench c0 n0 = true
    · simpa [exec, amDone_wake, h] using hs
    · simpa [exec, amDone_wake, h] using hs
  | announceNewGame g => simpa [exec, announceNewGame] using hs
  | callTrial t => simpa [exec, callTrial] using hs
  | startTrial => simpa [exec, startTrial] using hs
  | assertTrialDecision => simpa [exec, assertTrialDecision] using hs
  | declareGameWinner d => simpa [exec, declareGameWinner] using hs
  | declareMatchWinner => simpa [exec, declareMatchWinner] using hs

theorem run_not_in_position (P : ProbConst)
    (hSeat : P.SEAT_AT_THE_BENCH ≠ P.STAND_IN_POSITION)
    (hBest : P.DO_YOUR_BEST ≠ P.STAND_IN_POSITION) (c n : Nat) (ops : List Oper) :
    ∀ s : MonitorDS, (∀ o ∈ ops, o.isFollowCoachAdvice = false) →
      s.fSt.contStat c n ≠ P.STAND_IN_POSITION →
      (run P ops s).fSt.contStat c n ≠ P.STAND_IN_POSITION
      ∧ ∀ e ∈ runEvents P ops s, e.mon.fSt.contStat c n ≠ P.STAND_IN_POSITION := by
  induction ops with
  | nil => intro s _ hs; exact ⟨hs, by simp [runEvents]⟩
  | cons o os ih =>
    intro s hops hs
    have ho := hops o (List.mem_cons_self o os)
    have h1 := exec_not_in_position P hSeat hBest o ho s c n hs
    have h2 := ih (exec P o s).1 (fun o' ho' => hops o' (List.mem_cons_of_mem o ho')) h1.1
    refine ⟨h2.1, ?_⟩
    intro e he
    simp only [runEvents, List.mem_append] at he
    rcases he with he | he
    · exact h1.2 e he
    · exact h2.2 e he

/-- C6, as stated, fails: with the termination flag true, `followCoachAdvice` invoked
for contestant (0, 0), whose status is not STAND_IN_POSITION, records and saves
STAND_IN_POSITION. -/
theorem followCoachAdvice_after_end_records_position :
    stEnded.fSt.end_ = true
    ∧ stEnded.fSt.contStat 0 0 ≠ P0.STAND_IN_POSITION
    ∧ (followCoachAdvice_enter P0 stEnded 0 0).1.fSt.contStat 0 0 = P0.STAND_IN_POSITION
    ∧ recorded 0 0 (followCoachAdvice_enter P0 stEnded 0 0).2 = [P0.STAND_IN_POSITION] := by
  refine ⟨rfl, by decide, rfl, rfl⟩

/-- C6, amended: once the termination flag is true it is true after any sequence of
monitor operations; a `seatDown` called then, whose wait is released while the other
parties leave the flag true, returns true; any sequence of operations without
`followCoachAdvice` leaves out of STAND_IN_POSITION every contestant that is not in it
and saves no state where that contestant is in it; `followCoachAdvice` itself does not
look at the flag and records STAND_IN_POSITION. -/
theorem termination_flag_stable (P : ProbConst)
    (hSeat : P.SEAT_AT_THE_BENCH ≠ P.STAND_IN_POSITION)
    (hBest : P.DO_YOUR_BEST ≠ P.STAND_IN_POSITION)
    (s : MonitorDS) (hend : s.fSt.end_ = true) (ops : List Oper)
    (env : List (MonitorDS → MonitorDS))
    (henv : ∀ e ∈ env, ∀ m : MonitorDS, m.fSt.end_ = true → (e m).fSt.end_ = true)
    (coachId contId i : Nat) (hi : i ≤ env.length)
    (hrel : (afterEnv env i (s.setStat coachId contId P.SEAT_AT_THE_BENCH)).joinTheTeam
              coachId contId = true)
    (ops2 : List Oper) (hops2 : ∀ o ∈ ops2, o.isFollowCoachAdvice = false)
    (c n : Nat) (hstat : s.fSt.contStat c n ≠ P.STAND_IN_POSITION) :
    (run P ops s).fSt.end_ = true
    ∧ (∃ s2 ev, seatDown P env s coachId contId = some (s2, ev, true))
    ∧ (run P ops2 s).fSt.contStat c n ≠ P.STAND_IN_POSITION
    ∧ (∀ e ∈ runEvents P ops2 s, e.mon.fSt.contStat c n ≠ P.STAND_IN_POSITION)
    ∧ (followCoachAdvice_enter P s coachId contId).1.fSt.contStat coachId contId
        = P.STAND_IN_POSITION
    ∧ recorded coachId contId (followCoachAdvice_enter P s coachId contId).2
        = [P.STAND_IN_POSITION] := by
  refine ⟨by rw [run_end]; exact hend, ?_,
    (run_not_in_position P hSeat hBest c n ops2 s hops2 hstat).1,
    (run_not_in_position P hSeat hBest c n ops2 s hops2 hstat).2, ?_,
    recorded_followCoachAdvice_enter P s coachId contId⟩
  · obtain ⟨j, _, hc, _⟩ :=
      condWait_released (fun m => m.joinTheTeam coachId contId) env i
        (s.setStat coachId contId P.SEAT_AT_THE_BENCH) hi hrel
    have hflag : (afterEnv env j (s.setStat coachId contId P.SEAT_AT_THE_BENCH)).fSt.end_
        = true :=
      afterEnv_preserves (fun m => m.fSt.end_ = true) env henv j _ hend
    refine ⟨{ afterEnv env j (s.setStat coachId contId P.SEAT_AT_THE_BENCH) with
        joinTheTeam :=
          set2 (afterEnv env j (s.setStat coachId contId P.SEAT_AT_THE_BENCH)).joinTheTeam
            coachId contId false },
      [⟨Call.saveState, s.setStat coachId contId P.SEAT_AT_THE_BENCH⟩], ?_⟩
    simp only [seatDown, seatDown_enter, hc, seatDown_wake, hflag]
  · by_cases hM : s.nContInPosition coachId + 1 = P.M <;>
      simp [followCoachAdvice_enter, MonitorDS.setStat, set2_same, hM]

/-- Witness of the amended C6: the match is over, contestant (0, 1) sits down and is
called by its coach. -/
theorem termination_flag_stable_witness :
    stEnded.fSt.end_ = true
    ∧ (run P0 firstTrial stEnded).fSt.end_ = true
    ∧ (∃ s2 ev, seatDown P0 [raiseJoinTheTeam 0 1] stEnded 0 1 = some (s2, ev, true))
    ∧ (run P0 opsAfterEnd stEnded).fSt.contStat 1 2 ≠ P0.STAND_IN_POSITION :=
  ⟨rfl,
    (termination_flag_stable P0 (by decide) (by decide) stEnded rfl firstTrial
      [raiseJoinTheTeam 0 1] (by intro e he m hm; simp at he; subst he; exact hm) 0 1 1
      (by decide) rfl opsAfterEnd (by decide) 1 2 (by decide)).1,
    (termination_flag_stable P0 (by decide) (by decide) stEnded rfl firstTrial
      [raiseJoinTheTeam 0 1] (by intro e he m hm; simp at he; subst he; exact hm) 0 1 1
      (by decide) rfl opsAfterEnd (by decide) 1 2 (by decide)).2.1,
    (termination_flag_stable P0 (by decide) (by decide) stEnded rfl firstTrial
      [raiseJoinTheTeam 0 1] (by intro e he m hm; simp at he; subst he; exact hm) 0 1 1
      (by decide) rfl opsAfterEnd (by decide) 1 2 (by decide)).2.2.1⟩

/-! ## The counters are never reset -/

/-- No atomic section of the two source files lowers a counter `nContInPosition[c]`. -/
theorem exec_nContInPosition_mono (P : ProbConst) (o : Oper) (s : MonitorDS) (c : Nat) :
    s.nContInPosition c ≤ (exec P o s).1.nContInPosition c := by
  cases o with
  | followCoachAdvice_enter c0 n0 =>
    by_cases hc : c = c0
    · subst hc
      by_cases hM : s.nContInPosition c + 1 = P.M
      · simp only [exec, followCoachAdvice_enter, MonitorDS.setStat, Function.update_same, hM,
          if_true]
        omega
      · simp [exec, followCoachAdvice_enter, MonitorDS.setStat, hM]
    · by_cases hM : s.nContInPosition c0 + 1 = P.M <;>
        simp [exec, followCoachAdvice_enter, MonitorDS.setStat, hM, Function.update, hc]
  | seatDown_enter c0 n0 => simp [exec, seatDown_enter, MonitorDS.setStat]
  | getReady c0 n0 => simp [exec, getReady, MonitorDS.setStat]
  | endOperContestant c0 n0 =>
    by_cases h : s.fSt.end_ = true <;> simp [exec, endOperContestant, h, MonitorDS.setStat]
  | amDone_enter c0 n0 =>
    by_cases hM : s.nContestants + 1 = P.C * P.M <;> simp [exec, amDone_enter, hM]
  | seatDown_wake c0 n0 =>
    by_cases h : s.joinTheTeam c0 n0 = true <;> simp [exec, seatDown_wake, h]
  | followCoachAdvice_wake c0 n0 =>
    by_cases h : s.startPulling c0 n0 = true <;> simp [exec, followCoachAdvice_wake, h]
  | amDone_wake c0 n0 =>
    by_cases h : s.returnToBench c0 n0 = true <;> simp [exec, amDone_wake, h]
  | announceNewGame g => simp [exec, announceNewGame]
  | callTrial t => simp [exec, callTrial]
  | startTrial => simp [exec, startTrial]
  | assertTrialDecision => simp [exec, assertTrialDecision]
  | declareGameWinner d => simp [exec, declareGameWinner]
  | declareMatchWinner => simp [exec, declareMatchWinner]

theorem run_nContInPosition_mono (P : ProbConst) (c : Nat) (ops : List Oper) :
    ∀ s : MonitorDS, s.nContInPosition c ≤ (run P ops s).nContInPosition c := by
  induction ops with
  | nil => intro s; exact le_refl _
  | cons o os ih =>
    intro s
    exact le_trans (exec_nContInPosition_mono P o s c) (ih (exec P o s).1)

/-! ## The referee's operations -/

/-- C2, evaluated on the code: `callTrial` leaves `nContInPosition` as it is and no
sequence of operations ever lowers a counter, so that with `M = 3` the counter of team 0
is 3 after the first trial, 4 after the first
`followCoachAdvice` of the second trial and 6 at its end, and no call of the second
trial signals a coach. -/
theorem callTrial_keeps_nContInPosition :
    (∀ (t : Nat) (s : MonitorDS), (callTrial t s).1.nContInPosition = s.nContInPosition)
    ∧ (∀ (P : ProbConst) (ops : List Oper) (s : MonitorDS) (c : Nat),
        s.nContInPosition c ≤ (run P ops s).nContInPosition c)
    ∧ P0.M = 3
    ∧ (run P0 firstTrial initState).nContInPosition 0 = 3
    ∧ (run P0 (firstTrial ++ secondTrial.take 2) initState).nContInPosition 0 = 4
    ∧ (run P0 (firstTrial ++ secondTrial) initState).nContInPosition 0 = 6
    ∧ (runEvents P0 secondTrial (run P0 firstTrial initState)).map Event.call
        = [Call.saveState, Call.saveState, Call.saveState, Call.saveState, Call.saveState,
           Call.saveState] := by
  refine ⟨fun t s => rfl, fun P ops s c => run_nContInPosition_mono P c ops s, rfl, rfl, rfl,
    rfl, rfl⟩

/-- C7, evaluated on the code: `declareMatchWinner` changes no monitor variable and calls
nothing, and no sequence of operations changes the termination flag; called with the
flag false, `declareMatchWinner` leaves it false. -/
theorem declareMatchWinner_no_effect :
    (∀ s : MonitorDS, declareMatchWinner s = (s, []))
    ∧ (∀ (P : ProbConst) (ops : List Oper) (s : MonitorDS),
        (run P ops s).fSt.end_ = s.fSt.end_)
    ∧ initState.fSt.end_ = false
    ∧ (declareMatchWinner initState).1.fSt.end_ = false
    ∧ (declareMatchWinner initState).2 = [] := by
  refine ⟨fun s => rfl, fun P ops s => run_end P ops s, rfl, rfl, rfl⟩

/-- C8, evaluated on the code: whatever the decision, `declareGameWinner` changes no
monitor variable and calls nothing, so that the outcome for `'C'` is the outcome for
`'E'`. -/
theorem declareGameWinner_no_effect :
    (∀ (d : Char) (s : MonitorDS), declareGameWinner d s = (s, []))
    ∧ declareGameWinner 'C' initState = declareGameWinner 'E' initState
    ∧ (declareGameWinner 'C' initState).2 = []
    ∧ (declareGameWinner 'E' initState).1 = initState := by
  refine ⟨fun d s => rfl, rfl, rfl, rfl⟩

/-! ## The kind of wake-up -/

/-- C10, as stated, fails: when the third contestant of team 0 takes position and when
the sixth contestant ends its effort, the call made is `pthread_cond_signal` and no
`pthread_cond_broadcast` is made. -/
theorem wake_is_not_broadcast :
    (followCoachAdvice_enter P0 stTwoInPosition 0 2).2.map Event.call
        = [Call.saveState, Call.pthread_cond_signal (CondVar.waitForNotice 0)]
    ∧ Call.pthread_cond_broadcast (CondVar.waitForNotice 0)
        ∉ (followCoachAdvice_enter P0 stTwoInPosition 0 2).2.map Event.call
    ∧ (amDone_enter P0 stFiveDone).2.map Event.call
        = [Call.pthread_cond_signal CondVar.proceed]
    ∧ Call.pthread_cond_broadcast CondVar.proceed
        ∉ (amDone_enter P0 stFiveDone).2.map Event.call := by
  refine ⟨rfl, by decide, rfl, by decide⟩

/-- C10, amended: the wake-up that `followCoachAdvice` issues on `waitForNotice[coachId]`
when the counter reaches `M`, and the one that `amDone` issues on `proceed` when the
counter reaches `C * M`, are calls of `pthread_cond_signal`; neither operation ever calls
`pthread_cond_broadcast`. -/
theorem wake_is_signal (P : ProbConst) (s : MonitorDS) (coachId contId : Nat) :
    (Call.pthread_cond_signal (CondVar.waitForNotice coachId)
        ∈ (followCoachAdvice_enter P s coachId contId).2.map Event.call
      ↔ s.nContInPosition coachId + 1 = P.M)
    ∧ (Call.pthread_cond_signal CondVar.proceed ∈ (amDone_enter P s).2.map Event.call
      ↔ s.nContestants + 1 = P.C * P.M)
    ∧ (∀ cv, Call.pthread_cond_broadcast cv
        ∉ (followCoachAdvice_enter P s coachId contId).2.map Event.call)
    ∧ (∀ cv, Call.pthread_cond_broadcast cv ∉ (amDone_enter P s).2.map Event.call) := by
  refine ⟨?_, ?_, ?_, ?_⟩
  · by_cases hM : s.nContInPosition coachId + 1 = P.M <;>
      simp [followCoachAdvice_enter, MonitorDS.setStat, hM]
  · by_cases hM : s.nContestants + 1 = P.C * P.M <;> simp [amDone_enter, hM]
  · intro cv
    by_cases hM : s.nContInPosition coachId + 1 = P.M <;>
      simp [followCoachAdvice_enter, MonitorDS.setStat, hM]
  · intro cv
    by_cases hM : s.nContestants + 1 = P.C * P.M <;> simp [amDone_enter, hM]

/-- The amended C10 at `M = 3` with two contestants of team 0 in position. -/
theorem wake_is_signal_witness :
    (Call.pthread_cond_signal (CondVar.waitForNotice 0)
        ∈ (followCoachAdvice_enter P0 stTwoInPosition 0 2).2.map Event.call
      ↔ stTwoInPosition.nContInPosition 0 + 1 = P0.M) :=
  (wake_is_signal P0 stTwoInPosition 0 2).1

end GameOfRope
